import Mathlib

/-!
Verification development for the voidai (FloatChat) backend.

The definitions below are a shallow embedding, in Lean, of the Python code in
`backend/src/`: each Lean definition mirrors one Python function or constant,
translated statement by statement.  Strings are modelled as Lean `String` /
`List Char` (the inputs of interest are ASCII, so ASCII case conversion agrees
with Python's `str.upper`/`str.lower`), machine floats as `ℚ` (the arithmetic
involved is small-scale and exact), wall-clock times are omitted, and calls to
external services (database driver, tokenizer, embedding model, vector index,
LLM endpoint, regex engine for the intent tables) are taken as explicit
function/outcome parameters.  The theorems at the end of the file settle the
specification claims against these definitions.
-/

namespace Voidai

/-! ## Basic character and string helpers (Python semantics) -/

/-- Python whitespace characters, as used by `str.split()`, `str.strip()` and
the regex class `\s`. -/
def pyWs (c : Char) : Bool :=
  c = ' ' || c = '\t' || c = '\n' || c = '\r' || c = '\x0b' || c = '\x0c'

/-- ASCII upper-casing of every character (Python `str.upper` on ASCII input). -/
def pyUpper (l : List Char) : List Char := l.map Char.toUpper

/-- ASCII lower-casing of every character (Python `str.lower` on ASCII input). -/
def pyLower (l : List Char) : List Char := l.map Char.toLower

/-- Remove trailing Python whitespace. -/
def dropTrailWs (l : List Char) : List Char := (l.reverse.dropWhile pyWs).reverse

/-- Python `str.strip()`: remove leading and trailing whitespace. -/
def pyStrip (l : List Char) : List Char := dropTrailWs (l.dropWhile pyWs)

/-- Does `pat` occur at the head of `l`? -/
def startsWithL : List Char → List Char → Bool
  | [], _ => true
  | _ :: _, [] => false
  | c :: p, d :: l => c = d && startsWithL p l

/-- Does `pat` occur as a contiguous substring of `l`?  (Python `pat in s`.) -/
def containsSub (pat : List Char) : List Char → Bool
  | [] => startsWithL pat []
  | c :: rest => startsWithL pat (c :: rest) || containsSub pat rest

/-- Regex word characters `\w` (the queries involved are ASCII). -/
def isWordChar (c : Char) : Bool := c.isAlphanum || c = '_'

/-- The single-quote character. -/
def sqlQuote : Char := Char.ofNat 39

/-! ## SQLValidator (`backend/src/db_manager.py`)

`SQLValidator.validate_sql` normalizes the query (upper-case, strip, remove
`--` line comments and `/*...*/` block comments) and then runs an ordered
chain of checks; `SQLValidator.sanitize_sql` strips comments, collapses
whitespace and appends a semicolon.  The comment-stripping functions below
reproduce Python's `re.sub(r'--.*', '', s)` and
`re.sub(r'/\*.*?\*/', '', s, flags=re.DOTALL)`: single left-to-right passes,
`--` deleting to the end of the line (the newline is kept), `/*` deleting
through the nearest following `*/` and an unclosed `/*` left untouched. -/

/-- One pass of `re.sub(r'--.*', '', s)` as a two-state scanner: in the
`inComment` state, characters are dropped up to (but not including) the next
newline; in the normal state a `--` pair switches to `inComment` and everything
else is copied.  The scan continues after each removed comment, exactly like
the single left-to-right `re.sub` pass. -/
def stripLineAux : Bool → List Char → List Char
  | _, [] => []
  | true, c :: rest =>
    if c = '\n' then c :: stripLineAux false rest else stripLineAux true rest
  | false, [c] => [c]
  | false, c :: d :: r2 =>
    if c = '-' ∧ d = '-' then stripLineAux true r2
    else c :: stripLineAux false (d :: r2)

/-- `re.sub(r'--.*', '', s)`. -/
def stripLineComments (l : List Char) : List Char := stripLineAux false l

/-- Does `*/` occur in `l`?  (Decides whether the non-greedy `.*?\*/` part
of the block-comment regex can complete.) -/
def hasCloseSub (l : List Char) : Bool := containsSub ['*', '/'] l

/-- One pass of `re.sub(r'/\*.*?\*/', '', s, flags=re.DOTALL)` as a two-state
scanner: a `/*` whose remainder contains a `*/` is deleted together with
everything through the nearest following `*/` (the `inComment` state); a `/*`
with no later `*/` does not match, and since no `*/` remains after it, the
whole remainder is kept verbatim. -/
def stripBlockAux : Bool → List Char → List Char
  | _, [] => []
  | true, [_] => []
  | true, c :: d :: r2 =>
    if c = '*' ∧ d = '/' then stripBlockAux false r2
    else stripBlockAux true (d :: r2)
  | false, [c] => [c]
  | false, c :: d :: r2 =>
    if c = '/' ∧ d = '*' then
      if hasCloseSub r2 then stripBlockAux true r2 else c :: d :: r2
    else c :: stripBlockAux false (d :: r2)

/-- `re.sub(r'/\*.*?\*/', '', s, flags=re.DOTALL)`. -/
def stripBlockComments (l : List Char) : List Char := stripBlockAux false l

/-- Python `str.split()` (split on runs of whitespace, discarding empties),
as an accumulator scan; `cur` is the reversed current word. -/
def wordsAux : List Char → List Char → List (List Char)
  | cur, [] => if cur = [] then [] else [cur.reverse]
  | cur, c :: rest =>
    if pyWs c then
      if cur = [] then wordsAux [] rest else cur.reverse :: wordsAux [] rest
    else wordsAux (c :: cur) rest

/-- Python `str.split()`. -/
def words (l : List Char) : List (List Char) := wordsAux [] l

/-- Python `' '.join(ws)`. -/
def joinSp : List (List Char) → List Char
  | [] => []
  | [w] => w
  | w :: ws => w ++ ' ' :: joinSp ws

/-- Python `' '.join(s.split())`: collapse all whitespace runs to single
spaces and trim the ends. -/
def collapse (l : List Char) : List Char := joinSp (words l)

/-- Append a terminating semicolon unless one is already last. -/
def ensureSemi (l : List Char) : List Char :=
  if l.getLast? = some ';' then l else l ++ [';']

/-- `SQLValidator.sanitize_sql`: remove `--` and `/*...*/` comments, collapse
whitespace (`' '.join(sql_query.split())`), and ensure a trailing `;`. -/
def sanitize_sql (s : String) : String :=
  String.mk (ensureSemi (collapse (stripBlockComments (stripLineComments s.data))))

/-- `SQLValidator.FORBIDDEN_KEYWORDS`, in source order. -/
def FORBIDDEN_KEYWORDS : List String :=
  ["INSERT", "UPDATE", "DELETE", "DROP", "CREATE", "ALTER", "TRUNCATE",
   "REPLACE", "MERGE", "CALL", "EXEC", "EXECUTE", "DECLARE", "SET",
   "GRANT", "REVOKE", "COMMIT", "ROLLBACK", "SAVEPOINT", "LOCK"]

/-- `SQLValidator.FORBIDDEN_FUNCTIONS`, in source order. -/
def FORBIDDEN_FUNCTIONS : List String :=
  ["xp_cmdshell", "sp_configure", "openrowset", "opendatasource",
   "pg_read_file", "pg_ls_dir", "copy", "load_file", "into outfile"]

/-- No word character, or the start of the string: the left half of a `\b`
boundary in front of a word-character pattern. -/
def noWordBefore : Option Char → Bool
  | none => true
  | some c => !isWordChar c

/-- No word character follows: the right half of a `\b` boundary after a
word-character pattern. -/
def noWordAfter : List Char → Bool
  | [] => true
  | c :: _ => !isWordChar c

/-- Scan helper: does `re.search(r'\b' + kw + r'\b', l)` succeed, i.e. does
`kw` (a purely alphabetic keyword) occur with no word character on either
side?  `prev` is the character before the current position. -/
def wholeWordFrom (kw : List Char) : Option Char → List Char → Bool
  | prev, [] => noWordBefore prev && startsWithL kw []
  | prev, c :: rest =>
    (noWordBefore prev && startsWithL kw (c :: rest)
      && noWordAfter (List.drop kw.length (c :: rest)))
    || wholeWordFrom kw (some c) rest

/-- `re.search(r'\b' + kw + r'\b', l)` for a keyword of word characters. -/
def wholeWord (kw : String) (l : List Char) : Bool := wholeWordFrom kw.data none l

/-- Generic position scanner with the previous character tracked, for the
injection patterns that begin with a `\b` boundary. -/
def scanFrom (f : Option Char → List Char → Bool) : Option Char → List Char → Bool
  | prev, [] => f prev []
  | prev, c :: rest => f prev (c :: rest) || scanFrom f (some c) rest

/-- Run a boundary-aware matcher at every position of `l`. -/
def scanStr (f : Option Char → List Char → Bool) (l : List Char) : Bool :=
  scanFrom f none l

/-- Run a position matcher at every suffix of `l`. -/
def scanSimple (f : List Char → Bool) : List Char → Bool
  | [] => f []
  | c :: rest => f (c :: rest) || scanSimple f rest

/-- Consume a literal. -/
def eatLit (pat l : List Char) : Option (List Char) :=
  if startsWithL pat l then some (l.drop pat.length) else none

/-- Consume `\s+` (at least one whitespace character, then as many as
possible; all the patterns below follow `\s+`/`\s*` with a non-whitespace
literal, so maximal munch is exact). -/
def eatWs1 : List Char → Option (List Char)
  | [] => none
  | c :: rest => if pyWs c then some (rest.dropWhile pyWs) else none

/-- Consume `\s*`. -/
def eatWs0 (l : List Char) : List Char := l.dropWhile pyWs

/-- Nondeterministic `.*` (no newline): try the continuation after consuming
each possible number of non-newline characters. -/
def dotStarThen (k : List Char → Bool) : List Char → Bool
  | [] => k []
  | c :: rest => k (c :: rest) || (!(c == '\n') && dotStarThen k rest)

/-- Helper for the pattern `r"';.*--"`: is there a `--` before the next
newline? -/
def dashesBeforeNl : List Char → Bool
  | [] => false
  | c :: rest =>
    if c = '-' ∧ rest.head? = some '-' then true
    else if c = '\n' then false
    else dashesBeforeNl rest

/-- Injection pattern `r"';.*--"` (comment-terminated command). -/
def srchCmdTerm : List Char → Bool
  | [] => false
  | c :: rest =>
    (c == sqlQuote &&
      (match rest with
       | ';' :: r2 => dashesBeforeNl r2
       | _ => false))
    || srchCmdTerm rest

/-- Match `r"\bunion\s+select\b"` at one position (the scanned text is already
upper-case, so with `re.IGNORECASE` the literals are upper-case). -/
def matchUnionSelectAt (prev : Option Char) (l : List Char) : Bool :=
  noWordBefore prev &&
    (match eatLit "UNION".data l with
     | none => false
     | some l1 =>
       match eatWs1 l1 with
       | none => false
       | some l2 =>
         match eatLit "SELECT".data l2 with
         | none => false
         | some l3 => noWordAfter l3)

/-- Match `r"\bor\s+1\s*=\s*1\b"` / `r"\band\s+1\s*=\s*1\b"` at one
position (`kw` is `OR` or `AND`). -/
def matchNum1At (kw : List Char) (prev : Option Char) (l : List Char) : Bool :=
  noWordBefore prev &&
    (match eatLit kw l with
     | none => false
     | some l1 =>
       match eatWs1 l1 with
       | none => false
       | some l2 =>
         match eatLit ['1'] l2 with
         | none => false
         | some l3 =>
           match eatLit ['='] (eatWs0 l3) with
           | none => false
           | some l4 =>
             match eatLit ['1'] (eatWs0 l4) with
             | none => false
             | some l5 => noWordAfter l5)

/-- Tail of `r"\bor\s+'.*'\s*=\s*'.*'\b"` after the first closing quote:
`\s*=\s*'.*'` followed by a `\b`, which after a quote requires a word
character next. -/
def orQuoteTail (l : List Char) : Bool :=
  match eatLit ['='] (eatWs0 l) with
  | none => false
  | some l1 =>
    match l1.dropWhile pyWs with
    | c :: l2 =>
      c == sqlQuote &&
        dotStarThen
          (fun m =>
            match m with
            | d :: m2 =>
              d == sqlQuote &&
                (match m2 with
                 | e :: _ => isWordChar e
                 | [] => false)
            | [] => false)
          l2
    | [] => false

/-- Match `r"\bor\s+'.*'\s*=\s*'.*'\b"` at one position. -/
def matchOrQuoteAt (prev : Option Char) (l : List Char) : Bool :=
  noWordBefore prev &&
    (match eatLit "OR".data l with
     | none => false
     | some l1 =>
       match eatWs1 l1 with
       | none => false
       | some l2 =>
         match l2 with
         | c :: l3 =>
           c == sqlQuote &&
             dotStarThen
               (fun m =>
                 match m with
                 | d :: m2 => d == sqlQuote && orQuoteTail m2
                 | [] => false)
               l3
         | [] => false)

/-- Is `c` a hexadecimal digit (regex `[0-9a-fA-F]`)? -/
def isHexDig (c : Char) : Bool :=
  c.isDigit || (97 ≤ c.toNat && c.toNat ≤ 102) || (65 ≤ c.toNat && c.toNat ≤ 70)

/-- Injection pattern `r"\\x[0-9a-fA-F]+"` (a literal backslash, `x`
case-insensitively, then at least one hex digit). -/
def srchHexEscape : List Char → Bool
  | [] => false
  | c :: rest =>
    (c == '\\' &&
      (match rest with
       | c2 :: c3 :: _ => (c2 == 'x' || c2 == 'X') && isHexDig c3
       | _ => false))
    || srchHexEscape rest

/-- Match `r"concat\s*\("` at one position. -/
def matchConcatAt (l : List Char) : Bool :=
  match eatLit "CONCAT".data l with
  | none => false
  | some l1 => startsWithL ['('] (eatWs0 l1)

/-- The `injection_patterns` loop of `validate_sql`, in source order.  The
first pattern `r"';.*--"` can in fact never fire because line comments have
already been removed from the normalized query, but it is embedded
faithfully. -/
def hasInjection (l : List Char) : Bool :=
  srchCmdTerm l
  || scanStr matchUnionSelectAt l
  || scanStr (matchNum1At "OR".data) l
  || scanStr (matchNum1At "AND".data) l
  || scanStr matchOrQuoteAt l
  || srchHexEscape l
  || containsSub "CHAR(".data l
  || containsSub "ASCII(".data l
  || scanSimple matchConcatAt l

/-- The `system_patterns` list: each is `\b`‑delimited and case-insensitive;
on the upper-cased normalized query they are whole-word upper-case
identifiers. -/
def SYSTEM_PATTERNS : List String :=
  ["INFORMATION_SCHEMA", "PG_CATALOG", "PG_CLASS", "PG_TABLES",
   "PG_USER", "MYSQL", "PERFORMANCE_SCHEMA", "SYS"]

/-- `re.search(r';\s*\S', s)`: some semicolon is followed (anywhere later on)
by a non-whitespace character. -/
def semiThenNonWs : List Char → Bool
  | [] => false
  | ';' :: rest => rest.any (fun c => !pyWs c) || semiThenNonWs rest
  | _ :: rest => semiThenNonWs rest

/-- The normalized query of `validate_sql`: upper-case, strip, then remove
line and block comments. -/
def normalizeQuery (s : String) : List Char :=
  stripBlockComments (stripLineComments (pyStrip (pyUpper s.data)))

/-- `SQLValidator.validate_sql`: the ordered chain of checks, returning
`(is_valid, message)`.  The emptiness test `not sql_query or not
sql_query.strip()` is equivalent to every character being whitespace. -/
def validate_sql (s : String) : Bool × String :=
  if s.data.all pyWs then (false, "Empty SQL query")
  else
    let normalized := normalizeQuery s
    if !startsWithL "SELECT".data normalized then
      (false, "Only SELECT statements are allowed")
    else
      match FORBIDDEN_KEYWORDS.find? (fun kw => wholeWord kw normalized) with
      | some kw => (false, "Forbidden keyword detected: " ++ kw)
      | none =>
        match FORBIDDEN_FUNCTIONS.find? (fun fn => containsSub (pyUpper fn.data) normalized) with
        | some fn => (false, "Forbidden function detected: " ++ fn)
        | none =>
          if hasInjection normalized then
            (false, "Potential SQL injection pattern detected")
          else if SYSTEM_PATTERNS.any (fun p => wholeWord p normalized) then
            (false, "Access to system tables/schemas is not allowed")
          else if normalized.count '(' ≠ normalized.count ')' then
            (false, "Unbalanced parentheses in SQL query")
          else if semiThenNonWs s.data then
            (false, "Multiple SQL statements are not allowed")
          else (true, "SQL query is valid")

/-! ## FloatChatDBManager.execute_query (`backend/src/db_manager.py`)

`execute_query` validates, then sanitizes, then runs the query on the store.
The store is modelled as a function from the executed SQL text to either an
error message (any `SQLAlchemyError` raised during execution) or a pair of
column names and already-normalized rows (the per-value normalization of
timestamps and exotic types happens inside the driver loop and is absorbed
into the row values here).  Wall-clock `execution_time` is omitted.  The
second component of the result records whether the SQL was actually sent to
the store, which the source does only after validation succeeds (Step 3). -/

/-- A result row: an ordered mapping of column name to rendered value. -/
abbrev Row := List (String × String)

/-- `QueryExecutionResult` (dataclass): `execution_time` omitted. -/
structure QueryExecutionResult where
  success : Bool
  data : List Row
  row_count : Nat
  error_message : Option String := none
  column_names : Option (List String) := none
deriving DecidableEq

/-- `FloatChatDBManager.execute_query`.  Returns the result together with a
flag recording whether the (sanitized) query was executed against the store. -/
def execute_query (dbExec : String → Except String (List String × List Row))
    (sql : String) : QueryExecutionResult × Bool :=
  match validate_sql sql with
  | (false, msg) =>
    ({ success := false, data := [], row_count := 0,
       error_message := some ("SQL Validation Error: " ++ msg) }, false)
  | (true, _) =>
    match dbExec (sanitize_sql sql) with
    | Except.ok (cols, rows) =>
      ({ success := true, data := rows, row_count := rows.length,
         column_names := some cols }, true)
    | Except.error e =>
      ({ success := false, data := [], row_count := 0,
         error_message := some ("Database error: " ++ e) }, true)

/-! ## ChatHistoryManager (`backend/src/chat_history_manager.py`)

A session's stored turns are modelled as a list of `Turn`s in insertion
order; the tokenizer (`tiktoken`, `count_tokens`) is an external capability
and is passed in as a function `tok : String → Nat`.  Database errors are not
modelled (every SQL statement succeeds).

`add_message` truncates over-long messages, inserts the turn at
`MAX(turn_index)+1`, and then calls `optimize_conversation_history`; the
optimizer, when the 4000-token session ceiling is exceeded, reads the oldest
five turns (`ORDER BY turn_index LIMIT 5`), inserts a synthetic summary turn
through the same `add_message` path — which re-runs the optimizer — and only
after that nested call returns does it delete the five old turns.  The mutual
recursion is modelled with an explicit `fuel` bound (Python's recursion
limit): `fuel = 0` means the Python call stack is exhausted, a
`RecursionError` aborts the call, and no further statement runs.  Results are
`(state, completed, passes)`: the session contents at that point (every
insert commits individually), whether the call returned normally, and how
many summarization passes were entered. -/

/-- One stored `chat_history` row (metadata/full_response/created_at carry no
logic and are omitted). -/
structure Turn where
  turn_index : Nat
  role : String
  message : String
deriving DecidableEq

/-- A session's rows, in insertion order. -/
abbrev ChatState := List Turn

/-- `get_next_turn_index`: `SELECT MAX(turn_index)`, `(max or 0) + 1`. -/
def nextTurnIndex (st : ChatState) : Nat :=
  (st.map (fun t => t.turn_index)).foldr max 0 + 1

/-- `get_session_token_count`: re-tokenize every stored message and sum. -/
def sessionTokens (tok : String → Nat) (st : ChatState) : Nat :=
  (st.map (fun t => tok t.message)).sum

/-- Python slicing `s[:n]`. -/
def strTake (n : Nat) (s : String) : String := String.mk (s.data.take n)

/-- The truncation step of `add_message`: if the message exceeds
`max_tokens_per_message = 1000` tokens, keep the first `1000 * 4` characters
and append a marker. -/
def truncateMessage (tok : String → Nat) (msg : String) : String :=
  if tok msg > 1000 then strTake (1000 * 4) msg ++ "... [truncated]" else msg

/-- The summary text built by `optimize_conversation_history`. -/
def summaryText (old : List Turn) : String :=
  old.foldl (fun acc t => acc ++ t.role ++ ": " ++ strTake 100 t.message ++ "... ")
    "Previous conversation summary: "

/-- The turns sorted by `turn_index` (`ORDER BY turn_index`). -/
def sortTurns (st : ChatState) : ChatState :=
  List.insertionSort (fun a b => a.turn_index ≤ b.turn_index) st

/-- `ORDER BY turn_index LIMIT n`. -/
def oldestTurns (n : Nat) (st : ChatState) : ChatState := (sortTurns st).take n

/-- `DELETE FROM chat_history WHERE turn_index IN idxs`. -/
def deleteTurns (idxs : List Nat) (st : ChatState) : ChatState :=
  st.filter (fun t => !(idxs.contains t.turn_index))

mutual

/-- `ChatHistoryManager.add_message` (for one fixed session): truncate,
insert at `MAX(turn_index)+1`, then run the optimizer. -/
def addMessageF (tok : String → Nat) :
    Nat → ChatState → String → String → ChatState × Bool × Nat
  | fuel, st, role, msg =>
    let msg2 := truncateMessage tok msg
    let st2 := st ++ [⟨nextTurnIndex st, role, msg2⟩]
    optimizeF tok fuel st2
termination_by fuel _ _ _ => (fuel, 1)

/-- `ChatHistoryManager.optimize_conversation_history`: if the session total
exceeds `max_session_tokens = 4000`, fetch the oldest five turns, append a
summary turn via `add_message` (whose return value the source ignores), then
delete the five old turns.  The deletion runs only if the nested call
returns; an exhausted call stack (`fuel = 0`) aborts instead. -/
def optimizeF (tok : String → Nat) : Nat → ChatState → ChatState × Bool × Nat
  | 0, st => (st, false, 0)
  | fuel + 1, st =>
    if sessionTokens tok st ≤ 4000 then (st, true, 0)
    else
      match oldestTurns 5 st with
      | [] => (st, true, 0)
      | old =>
        match addMessageF tok fuel st "system" (summaryText old) with
        | (st2, true, p) =>
          (deleteTurns (old.map (fun t => t.turn_index)) st2, true, p + 1)
        | (st2, false, p) => (st2, false, p + 1)
termination_by fuel _ => (fuel, 0)

end

/-- A sequence of user-level `add_message` calls on one session, each with
its own stack budget. -/
def runCalls (tok : String → Nat) : ChatState → List (Nat × String × String) → ChatState
  | st, [] => st
  | st, (fuel, role, msg) :: rest =>
    runCalls tok (addMessageF tok fuel st role msg).1 rest

/-! ## FloatChatRAGCore (`backend/src/rag_core.py`)

The embedding model, the ChromaDB collection and the LLM endpoint are
external; their outcomes are parameters.  `embed_query` catches any
exception, logs, and re-raises — so it passes its outcome through.
`retrieve_context` converts the first query's parallel result lists into
documents with `similarity = 1 - distance`, and maps any exception to `[]`.
`process_query` chains the stages and re-raises whatever escapes.
Prompt assembly (`engineer_prompt`) and the LLM call produce the generated
SQL, whose outcome is the parameter `llmOutcome`; `processing_time` is wall
clock and omitted. -/

/-- A retrieved context document. -/
structure RetrievedDoc where
  content : String
  metadata : List (String × String)
  similarity_score : ℚ
deriving DecidableEq

/-- The first query's result lists from `collection.query` (`documents[0]`,
`metadatas[0]`, `distances[0]`); ChromaDB returns them with equal lengths. -/
structure RawQueryResults where
  documents : List String
  metadatas : List (List (String × String))
  distances : List ℚ
deriving DecidableEq

/-- `FloatChatRAGCore.embed_query`: `try: ... except: log; raise`. -/
def embed_query (modelOutcome : Except String (List ℚ)) : Except String (List ℚ) :=
  match modelOutcome with
  | Except.ok e => Except.ok e
  | Except.error msg => Except.error msg

/-- `FloatChatRAGCore.retrieve_context`: build one document per result entry
with `similarity_score = 1 - distance`; any exception degrades to `[]`. -/
def retrieve_context (res : Except String RawQueryResults) : List RetrievedDoc :=
  match res with
  | Except.error _ => []
  | Except.ok r =>
    if r.documents = [] then []
    else
      (r.documents.zip (r.metadatas.zip r.distances)).map
        (fun x => { content := x.1, metadata := x.2.1, similarity_score := 1 - x.2.2 })

/-- `FloatChatRAGCore.calculate_confidence_score`: average similarity scaled
by 0.6, plus 0.2/0.1/0.1 for SELECT/JOIN/WHERE, capped by `min(score, 1.0)`. -/
def calculate_confidence_score (context_docs : List RetrievedDoc) (sql_query : String) : ℚ :=
  let score0 : ℚ := 0
  let score1 :=
    if context_docs ≠ [] then
      score0 + ((context_docs.map (fun d => d.similarity_score)).sum
        / (context_docs.length : ℚ)) * (6/10)
    else score0
  let score2 :=
    if sql_query ≠ "" then
      let a := if startsWithL "SELECT".data (pyStrip (pyUpper sql_query.data)) then
          score1 + 2/10 else score1
      let b := if containsSub "JOIN".data (pyUpper sql_query.data) then a + 1/10 else a
      if containsSub "WHERE".data (pyUpper sql_query.data) then b + 1/10 else b
    else score1
  min score2 1

/-- `QueryResult` (dataclass): `processing_time` omitted. -/
structure QueryResult where
  sql_query : String
  confidence_score : ℚ
  retrieved_context : List RetrievedDoc
  reasoning : String
deriving DecidableEq

/-- `FloatChatRAGCore.process_query`: embed (re-raising on failure), retrieve
(soft failure), engineer the prompt and invoke the LLM (`llmOutcome`,
re-raising on failure), score, and assemble the `QueryResult`. -/
def process_query (embedOutcome : Except String (List ℚ))
    (retrievalOutcome : Except String RawQueryResults)
    (llmOutcome : Except String String) : Except String QueryResult :=
  match embed_query embedOutcome with
  | Except.error e => Except.error e
  | Except.ok _ =>
    let context_docs := retrieve_context retrievalOutcome
    match llmOutcome with
    | Except.error e => Except.error e
    | Except.ok sql =>
      Except.ok { sql_query := sql,
                  confidence_score := calculate_confidence_score context_docs sql,
                  retrieved_context := context_docs,
                  reasoning := "Here is the data you requested:" }

/-! ## IntentDetectionService (`backend/src/intent_service.py`)

The pattern tables are ordered exactly as declared in the source (Python
dicts preserve insertion order, and `max(..., key=...)` returns the first
maximum in iteration order).  The regex engine is external: `m p` stands for
`re.search(p, query_lower) is not None` for the already lower-cased, stripped
query; the claims hold for every such oracle.  Confidence values are `ℚ`. -/

/-- `ResponseType` enumeration. -/
inductive ResponseType where
  | conversational
  | data_query
  | visualization
  | map
  | summary
  | comparison
  | help
deriving DecidableEq

/-- The `.value` string of each variant. -/
def ResponseType.value : ResponseType → String
  | .conversational => "conversational"
  | .data_query => "data_query"
  | .visualization => "visualization"
  | .map => "map"
  | .summary => "summary"
  | .comparison => "comparison"
  | .help => "help"

/-- `IntentResult` (dataclass). -/
structure IntentResult where
  response_type : ResponseType
  confidence : ℚ
  reasoning : String
  visualization_type : Option String := none
  requires_data : Bool := false
deriving DecidableEq

/-- `self.intent_patterns`, in declaration order (`\x7b`/`\x7d` denote the
brace characters of the regex quantifier). -/
def intent_patterns : List (ResponseType × List String) :=
  [(ResponseType.conversational,
    ["^(hi|hello|hey|thanks|thank you|ok|okay|good|great|awesome|cool)$",
     "^(how are you|what.*your name|who are you)$",
     "^(bye|goodbye|see you|talk.*later)$",
     "^\\w\x7b1,10\x7d$"]),
   (ResponseType.data_query,
    ["(show|display|find|get|fetch|retrieve|list|give me).*\\b(data|measurements|values|records|results)\\b",
     "(temperature|salinity|pressure|depth).*\\b(from|in|at|of)\\b",
     "(how many|count|number of).*\\b(floats|profiles|measurements)\\b",
     "(what|which).*\\b(temperature|salinity|pressure)\\b",
     "(average|mean|max|maximum|min|minimum).*\\b(temperature|salinity|pressure)\\b"]),
   (ResponseType.visualization,
    ["\\b(plot|graph|chart|visualize|draw)\\b",
     "\\b(line chart|bar chart|scatter plot|histogram|pie chart)\\b",
     "\\b(trend|trends|over time|time series)\\b",
     "\\b(1d|2d|3d|one dimension|two dimension|three dimension)\\b",
     "(show.*trend|plot.*against|graph.*vs|chart.*over)",
     "(correlation|relationship|pattern).*\\b(between|of)\\b"]),
   (ResponseType.map,
    ["\\b(map|location|geographic|spatial|coordinate)\\b",
     "\\b(where|location|position|near|around|close to)\\b",
     "\\b(latitude|longitude|lat|lon|coordinates)\\b",
     "(show.*map|plot.*map|display.*location)",
     "(near|around|close to|within.*km|within.*miles)"]),
   (ResponseType.summary,
    ["\\b(summary|summarize|overview|statistics|stats)\\b",
     "\\b(total|overall|general|aggregate)\\b",
     "(what.*overall|give.*summary|provide.*overview)",
     "(describe|explain).*\\b(data|dataset|measurements)\\b"]),
   (ResponseType.comparison,
    ["\\b(compare|comparison|vs|versus|difference|differences)\\b",
     "\\b(higher|lower|greater|less|more|better|worse)\\b.*\\b(than|compared to)\\b",
     "(which.*better|which.*higher|which.*more)",
     "(float.*vs.*float|region.*vs.*region)"]),
   (ResponseType.help,
    ["\\b(help|how|what can|capabilities|features)\\b",
     "(how to|how do|what does|can you)",
     "(instructions|guide|tutorial|example)"])]

/-- `self.data_requiring_patterns`. -/
def data_requiring_patterns : List String :=
  ["\\b(temperature|salinity|pressure|depth|measurement)\\b",
   "\\b(float|profile|cycle|data)\\b",
   "\\b(show|display|find|plot|chart|map)\\b",
   "\\b(average|mean|max|min|count|total)\\b"]

/-- `self.visualization_patterns`, in declaration order. -/
def visualization_patterns : List (String × List String) :=
  [("line", ["\\b(line|trend|time series|over time)\\b"]),
   ("bar", ["\\b(bar|column|histogram|frequency)\\b"]),
   ("scatter", ["\\b(scatter|correlation|relationship|plot.*vs)\\b"]),
   ("heatmap", ["\\b(heatmap|heat map|density|intensity)\\b"]),
   ("pie", ["\\b(pie|percentage|proportion|distribution)\\b"]),
   ("3d", ["\\b(3d|three dimension|surface|contour)\\b"])]

/-- The `intent_scores` dict: for each response type in declaration order,
the patterns that matched; entries with score zero are not recorded. -/
def intentScores (m : String → Bool) : List (ResponseType × List String) :=
  (intent_patterns.map (fun rp => (rp.1, rp.2.filter m))).filter
    (fun x => x.2.length > 0)

/-- Python `max(keys, key=score)` over the insertion-ordered dict: the first
entry with the maximal score. -/
def pickMax : List (ResponseType × List String) → Option (ResponseType × List String)
  | [] => none
  | x :: rest =>
    some (rest.foldl (fun acc y => if y.2.length > acc.2.length then y else acc) x)

/-- Python `repr` of a pattern string (none contains a quote). -/
def pyStrRepr (s : String) : String :=
  String.singleton sqlQuote ++ s ++ String.singleton sqlQuote

/-- Python `str` of a list of pattern strings. -/
def pyListRepr (ws : List String) : String :=
  "[" ++ String.intercalate ", " (ws.map pyStrRepr) ++ "]"

/-- `IntentDetectionService._generate_reasoning`. -/
def generate_reasoning (intent : ResponseType) (scoreInfo : Option (List String)) : String :=
  match scoreInfo with
  | none => "Defaulted to " ++ intent.value ++ " based on query structure"
  | some pats =>
    "Detected " ++ intent.value ++ " intent (confidence: " ++ toString pats.length
      ++ ") based on patterns: " ++ pyListRepr (pats.take 2)

/-- `IntentDetectionService.analyze_intent` (the advisory `chat_history`
argument is unused by the source logic and omitted). -/
def analyze_intent (m : String → Bool) (user_query : String) : IntentResult :=
  let query_lower := pyStrip (pyLower user_query.data)
  let scores := intentScores m
  let pc : ResponseType × ℚ :=
    match pickMax scores with
    | none =>
      if (words query_lower).length ≤ 3 ∧ ¬ (data_requiring_patterns.any m) then
        (ResponseType.conversational, 7/10)
      else (ResponseType.data_query, 5/10)
    | some x => (x.1, min (9/10) (3/10 + (x.2.length : ℚ) * (2/10)))
  let hasViz := scores.any (fun x => x.1 = ResponseType.visualization)
  let pc2 : ResponseType × ℚ :=
    if pc.1 = ResponseType.comparison ∧ hasViz then
      (ResponseType.visualization, pc.2 + 1/10)
    else pc
  let requires_data := data_requiring_patterns.any m
  let hasComp := scores.any (fun x => x.1 = ResponseType.comparison)
  let visualization_type : Option String :=
    if pc2.1 = ResponseType.visualization then
      match visualization_patterns.find? (fun vp => vp.2.any m) with
      | some vp => some vp.1
      | none => some (if hasComp then "scatter" else "line")
    else if pc2.1 = ResponseType.map then some "map"
    else none
  { response_type := pc2.1,
    confidence := pc2.2,
    reasoning := generate_reasoning pc2.1
      ((scores.find? (fun x => x.1 = pc2.1)).map (fun x => x.2)),
    visualization_type := visualization_type,
    requires_data := requires_data }

/-- Modelled from the spec (§4.1 and the claim): the confidence the
specification prescribes — `min(0.9, 0.3 + 0.2 × winning score)` when any
pattern matched (plus `0.1` if the comparison winner is promoted because
visualization also matched), `0.7` for the conversational fallback (at most
three tokens and no data-requiring pattern), else `0.5`. -/
def specConfidence (m : String → Bool) (user_query : String) : ℚ :=
  match pickMax (intentScores m) with
  | none =>
    if (words (pyStrip (pyLower user_query.data))).length ≤ 3
        ∧ ¬ (data_requiring_patterns.any m) then 7/10
    else 5/10
  | some x =>
    if x.1 = ResponseType.comparison
        ∧ (intentScores m).any (fun y => y.1 = ResponseType.visualization) then
      min (9/10) (3/10 + (x.2.length : ℚ) * (2/10)) + 1/10
    else min (9/10) (3/10 + (x.2.length : ℚ) * (2/10))

/-! ## GeographicService (`backend/src/geocoding_service.py`)

The gazetteer is the source's ordered dict.  Coordinates are exact decimal
literals, so `ℚ` represents them faithfully.  The enhanced-context string of
`enhance_query_with_location` interpolates the matched key, the location, and
the 500 km proximity condition; its debugging bounding box additionally uses
`math.cos`, which is presentation-only and not part of the structured model.
The external Nominatim fallback of `get_location_coordinates` is not reached
by `enhance_query_with_location`, which scans gazetteer keys only. -/

/-- `LocationInfo` (dataclass). -/
structure LocationInfo where
  name : String
  latitude : ℚ
  longitude : ℚ
  country : Option String := none
deriving DecidableEq

/-- `GeographicService.OCEANOGRAPHIC_LOCATIONS`, in declaration order. -/
def OCEANOGRAPHIC_LOCATIONS : List (String × LocationInfo) :=
  [("mumbai", { name := "Mumbai", latitude := 19076/1000, longitude := 728777/10000,
                country := some "India" }),
   ("pacific", { name := "Pacific Ocean", latitude := 15, longitude := -150 }),
   ("atlantic", { name := "Atlantic Ocean", latitude := 25, longitude := -40 }),
   ("indian ocean", { name := "Indian Ocean", latitude := -10, longitude := 90 }),
   ("bay of bengal", { name := "Bay of Bengal", latitude := 12, longitude := 88,
                       country := some "India" }),
   ("arabian sea", { name := "Arabian Sea", latitude := 14, longitude := 65 }),
   ("gulf of mexico", { name := "Gulf of Mexico", latitude := 26, longitude := -90 }),
   ("mediterranean", { name := "Mediterranean Sea", latitude := 35, longitude := 20 }),
   ("north sea", { name := "North Sea", latitude := 55, longitude := 3 }),
   ("california", { name := "California Coast", latitude := 35, longitude := -125,
                    country := some "USA" }),
   ("alaska", { name := "Alaska", latitude := 58, longitude := -150,
                country := some "USA" }),
   ("japan", { name := "Japan", latitude := 35, longitude := 140,
               country := some "Japan" }),
   ("australia", { name := "Australia", latitude := -20, longitude := 130,
                   country := some "Australia" }),
   ("antarctica", { name := "Antarctica", latitude := -65, longitude := 0 }),
   ("greenland", { name := "Greenland", latitude := 70, longitude := -40,
                   country := some "Denmark" }),
   ("hawaii", { name := "Hawaii", latitude := 21, longitude := -157,
                country := some "USA" }),
   ("tropical pacific", { name := "Tropical Pacific", latitude := 5, longitude := -170 }),
   ("north atlantic", { name := "North Atlantic", latitude := 45, longitude := -35 }),
   ("south atlantic", { name := "South Atlantic", latitude := -25, longitude := -15 }),
   ("tropical indian", { name := "Tropical Indian Ocean", latitude := -5, longitude := 80 }),
   ("south pacific", { name := "South Pacific", latitude := -25, longitude := -170 })]

/-- The parameters interpolated into the proximity SQL fragment of
`generate_proximity_sql_condition` (the fragment is a fixed spherical-law-of-
cosines template over them). -/
structure ProximityCond where
  centerLat : ℚ
  centerLon : ℚ
  radius_km : ℚ
deriving DecidableEq

/-- `GeographicService.generate_proximity_sql_condition`. -/
def generate_proximity_sql_condition (location : LocationInfo) (radius_km : ℚ) :
    ProximityCond :=
  { centerLat := location.latitude, centerLon := location.longitude,
    radius_km := radius_km }

/-- The structured content of the `LOCATION CONTEXT DETECTED` block built by
`enhance_query_with_location`: the matched gazetteer key (`User mentioned:`),
the resolved location (`Coordinates:`), and the 500 km proximity condition. -/
structure GeoContext where
  mentioned : String
  location : LocationInfo
  proximity : ProximityCond
deriving DecidableEq

/-- `GeographicService.enhance_query_with_location`: scan the lower-cased
query for each gazetteer key as a substring, in declaration order; the first
hit wins (`break`); the original query is always returned unchanged. -/
def enhance_query_with_location (user_query : String) : String × Option GeoContext :=
  let query_lower := pyLower user_query.data
  match OCEANOGRAPHIC_LOCATIONS.find? (fun kv => containsSub kv.1.data query_lower) with
  | some kv =>
    (user_query,
     some { mentioned := kv.1, location := kv.2,
            proximity := generate_proximity_sql_condition kv.2 500 })
  | none => (user_query, none)

/-! ## handle_data_query response shaping (`backend/src/main.py`)

The route truncates the rows returned by the store to `request.max_results`
(`db_result.data[:request.max_results] if db_result.data else []`) and sets
`row_count = len(limited_data)`.  `QueryRequest` validates
`1 ≤ max_results ≤ 1000`; `execution_time` is wall clock and omitted. -/

/-- `QueryResponse` (pydantic model), the fields with logic behind them. -/
structure QueryResponse where
  success : Bool
  data : List Row
  sql_query : String
  row_count : Nat
  confidence_score : ℚ
  reasoning : String
  response_type : String
  visualization_type : Option String := none
  error_message : Option String := none
deriving DecidableEq

/-- The response-shaping tail of `handle_data_query`, from the database
result, the RAG result fields, the intent, and the request's `max_results`. -/
def handle_data_query_response (db_result : QueryExecutionResult)
    (rag_sql : String) (rag_conf : ℚ) (rag_reasoning : String)
    (intent : IntentResult) (max_results : Nat) : QueryResponse :=
  let limited_data := if db_result.data = [] then [] else db_result.data.take max_results
  { success := db_result.success,
    data := limited_data,
    sql_query := rag_sql,
    row_count := limited_data.length,
    confidence_score := rag_conf,
    reasoning := rag_reasoning,
    response_type := intent.response_type.value,
    visualization_type := intent.visualization_type,
    error_message := if db_result.success then none else db_result.error_message }

/-! ## Analysis predicates -/

/-- Do the characters `a`, `b` occur adjacently (in this order) in `l`?
Used to state the absence of the two-character markers `--` and `/*`. -/
def hasAdj (a b : Char) : List Char → Bool
  | c :: d :: rest => (c = a && d = b) || hasAdj a b (d :: rest)
  | _ => false

/-- The turn-index invariant for a session: the stored `turn_index` values,
in insertion order, are exactly `1, 2, …, n`. -/
def ChatInv (st : ChatState) : Prop :=
  st.map (fun t => t.turn_index) = List.range' 1 st.length

/-! ## Supporting lemmas -/

theorem toUpper_of_pyWs {c : Char} (h : pyWs c = true) : c.toUpper = c := by
  simp only [pyWs, Bool.or_eq_true, decide_eq_true_eq] at h
  rcases h with ((((h | h) | h) | h) | h) | h <;> subst h <;> decide

theorem normalizeQuery_of_allWs {s : String} (h : s.data.all pyWs = true) :
    normalizeQuery s = [] := by
  have hdrop : (pyUpper s.data).dropWhile pyWs = [] := by
    rw [List.dropWhile_eq_nil_iff]
    intro x hx
    simp only [pyUpper, List.mem_map] at hx
    obtain ⟨y, hy, rfl⟩ := hx
    have hw := List.all_eq_true.mp h y hy
    rw [toUpper_of_pyWs hw]
    exact hw
  simp only [normalizeQuery, pyStrip, hdrop]
  rfl

theorem foldr_max_range' : ∀ (s n : Nat),
    (List.range' s n).foldr max 0 = if n = 0 then 0 else s + n - 1 := by
  intro s n
  induction n generalizing s with
  | zero => rfl
  | succ k ih =>
    rw [List.range'_succ, List.foldr_cons, ih]
    rcases Nat.eq_zero_or_pos k with hk | hk
    · subst hk; simp
    · rw [if_neg (by omega), if_neg (by omega)]
      omega

theorem nextTurnIndex_of_inv {st : ChatState} (h : ChatInv st) :
    nextTurnIndex st = st.length + 1 := by
  unfold nextTurnIndex
  rw [show st.map (fun t => t.turn_index) = List.range' 1 st.length from h,
    foldr_max_range']
  rcases Nat.eq_zero_or_pos st.length with hl | hl
  · rw [if_pos hl]; omega
  · rw [if_neg (by omega)]; omega

theorem chatInv_append {st : ChatState} (h : ChatInv st) (role msg : String) :
    ChatInv (st ++ [⟨nextTurnIndex st, role, msg⟩]) := by
  unfold ChatInv
  rw [List.map_append, List.length_append,
    show st.map (fun t => t.turn_index) = List.range' 1 st.length from h]
  simp only [List.map_cons, List.map_nil, List.length_cons, List.length_nil,
    nextTurnIndex_of_inv h]
  rw [List.range'_concat]
  norm_num
  omega

theorem sessionTokens_append_le (tok : String → Nat) (st : ChatState) (t : Turn) :
    sessionTokens tok st ≤ sessionTokens tok (st ++ [t]) := by
  simp [sessionTokens, List.map_append, List.sum_append]

theorem oldestTurns_ne_nil {st : ChatState} (h : st ≠ []) : oldestTurns 5 st ≠ [] := by
  unfold oldestTurns sortTurns
  rw [Ne, List.take_eq_nil_iff]
  push_neg
  refine ⟨by omega, ?_⟩
  intro hs
  exact h (List.eq_nil_of_length_eq_zero (by rw [← List.length_insertionSort
    (fun a b => a.turn_index ≤ b.turn_index) st, hs]; rfl))

/-- Once the token ceiling is exceeded on a nonempty session, the optimizer
never returns: every additional unit of call-stack budget is consumed by one
more summarization pass (the summary insert happens before the deletion, and
re-runs the optimizer on a session whose token total has only grown). -/
theorem optimize_stuck (tok : String → Nat) :
    ∀ (fuel : Nat) (st : ChatState), 4000 < sessionTokens tok st → st ≠ [] →
      (optimizeF tok fuel st).2.1 = false ∧ (optimizeF tok fuel st).2.2 = fuel := by
  intro fuel
  induction fuel with
  | zero => intro st h hne; simp [optimizeF]
  | succ n ih =>
    intro st h hne
    obtain ⟨a, as, heq⟩ := List.exists_cons_of_ne_nil (oldestTurns_ne_nil hne)
    simp only [optimizeF, addMessageF, heq]
    rw [if_neg (by omega)]
    rcases hopt : optimizeF tok n
        (st ++ [⟨nextTurnIndex st, "system",
          truncateMessage tok (summaryText (a :: as))⟩]) with ⟨st2, ok, p⟩
    have hih := ih (st ++ [⟨nextTurnIndex st, "system",
          truncateMessage tok (summaryText (a :: as))⟩])
      (lt_of_lt_of_le h (sessionTokens_append_le tok st _)) (by simp)
    rw [hopt] at hih
    obtain ⟨hok, hp⟩ := hih
    simp only at hok hp
    subst hok
    subst hp
    rw [hopt]
    simp

/-- The optimizer preserves the turn-index invariant: either the token total
is within bounds and the state is unchanged, or the run aborts with the fuel
exhausted, in which case only appends have happened.  (The delete branch is
unreachable: the nested `add_message` never returns normally there.) -/
theorem optimize_inv (tok : String → Nat) :
    ∀ (fuel : Nat) (st : ChatState), ChatInv st → ChatInv (optimizeF tok fuel st).1 := by
  intro fuel
  induction fuel with
  | zero => intro st h; simpa [optimizeF] using h
  | succ n ih =>
    intro st h
    by_cases htok : sessionTokens tok st ≤ 4000
    · simpa [optimizeF, if_pos htok] using h
    · by_cases hold : oldestTurns 5 st = []
      · simpa [optimizeF, if_neg htok, hold] using h
      · obtain ⟨a, as, heq⟩ := List.exists_cons_of_ne_nil hold
        simp only [optimizeF, addMessageF, heq, if_neg htok]
        rcases hopt : optimizeF tok n
            (st ++ [⟨nextTurnIndex st, "system",
              truncateMessage tok (summaryText (a :: as))⟩]) with ⟨st2, ok, p⟩
        have hne : st ≠ [] := by
          intro hnil
          rw [hnil] at heq
          simp [oldestTurns, sortTurns] at heq
        have hstuck := (optimize_stuck tok n
          (st ++ [⟨nextTurnIndex st, "system",
            truncateMessage tok (summaryText (a :: as))⟩])
          (lt_of_lt_of_le (by omega) (sessionTokens_append_le tok st _)) (by simp)).1
        rw [hopt] at hstuck
        simp only at hstuck
        subst hstuck
        have hinv2 : ChatInv st2 := by
          have := ih (st ++ [⟨nextTurnIndex st, "system",
            truncateMessage tok (summaryText (a :: as))⟩]) (chatInv_append h _ _)
          rw [hopt] at this
          exact this
        rw [hopt]
        simpa using hinv2

theorem addMessage_inv (tok : String → Nat) (fuel : Nat) (st : ChatState)
    (role msg : String) (h : ChatInv st) :
    ChatInv (addMessageF tok fuel st role msg).1 := by
  rw [addMessageF]
  exact optimize_inv tok fuel _ (chatInv_append h _ _)

theorem analyze_intent_confidence_eq (m : String → Bool) (q : String) :
    (analyze_intent m q).confidence = specConfidence m q := by
  simp only [analyze_intent, specConfidence]
  rcases h : pickMax (intentScores m) with _ | x <;> dsimp only
  · by_cases hcond : (words (pyStrip (pyLower q.data))).length ≤ 3
        ∧ ¬ data_requiring_patterns.any m = true
    · simp only [if_pos hcond]
      rw [if_neg]
      rintro ⟨hx, -⟩
      simp at hx
    · simp only [if_neg hcond]
      rw [if_neg]
      rintro ⟨hx, -⟩
      simp at hx
  · by_cases hc : x.1 = ResponseType.comparison
        ∧ ((intentScores m).any fun y => decide (y.1 = ResponseType.visualization)) = true
    · simp only [if_pos hc]
    · simp only [if_neg hc]

theorem analyze_intent_promotes_comparison (m : String → Bool) (q : String)
    (x : ResponseType × List String)
    (h1 : pickMax (intentScores m) = some x)
    (h2 : x.1 = ResponseType.comparison)
    (h3 : (intentScores m).any (fun y => y.1 = ResponseType.visualization) = true) :
    (analyze_intent m q).response_type = ResponseType.visualization := by
  simp only [analyze_intent, h1]
  rw [if_pos ⟨h2, h3⟩]

theorem specConfidence_bounds (m : String → Bool) (q : String) :
    0 ≤ specConfidence m q ∧ specConfidence m q ≤ 1 := by
  unfold specConfidence
  rcases pickMax (intentScores m) with _ | x <;> dsimp only
  · split_ifs <;> norm_num
  · have hk : (0:ℚ) ≤ (x.2.length : ℚ) := Nat.cast_nonneg _
    have h1 : (0:ℚ) ≤ 9/10 ⊓ (3/10 + (x.2.length : ℚ) * (2/10)) :=
      le_min (by norm_num) (by nlinarith)
    have h2 : (9:ℚ)/10 ⊓ (3/10 + (x.2.length : ℚ) * (2/10)) ≤ 9/10 := min_le_left _ _
    split_ifs <;> constructor <;> linarith

theorem retrieve_context_bounds (r : RawQueryResults)
    (h : ∀ d ∈ r.distances, 0 ≤ d ∧ d ≤ 1) :
    ∀ doc ∈ retrieve_context (Except.ok r),
      0 ≤ doc.similarity_score ∧ doc.similarity_score ≤ 1 := by
  intro doc hdoc
  simp only [retrieve_context] at hdoc
  split at hdoc
  · exact absurd hdoc (List.not_mem_nil _)
  · rw [List.mem_map] at hdoc
    obtain ⟨x, hx, rfl⟩ := hdoc
    have hd : x.2.2 ∈ r.distances := (List.of_mem_zip (List.of_mem_zip hx).2).2
    obtain ⟨h0, h1⟩ := h _ hd
    constructor <;> simp only [] <;> linarith

theorem calculate_confidence_bounds (docs : List RetrievedDoc) (sql : String)
    (h : ∀ doc ∈ docs, 0 ≤ doc.similarity_score ∧ doc.similarity_score ≤ 1) :
    0 ≤ calculate_confidence_score docs sql ∧ calculate_confidence_score docs sql ≤ 1 := by
  rcases eq_or_ne docs [] with hd | hd
  · subst hd
    unfold calculate_confidence_score
    norm_num
    split_ifs <;> norm_num
  · have hlen : (0:ℚ) < (docs.length : ℚ) := by
      have := List.length_pos.mpr hd
      exact_mod_cast this
    have hsum0 : 0 ≤ (docs.map (fun d => d.similarity_score)).sum := by
      apply List.sum_nonneg
      intro a ha
      simp only [List.mem_map] at ha
      obtain ⟨doc, hdoc, rfl⟩ := ha
      exact (h doc hdoc).1
    have hsum1 : (docs.map (fun d => d.similarity_score)).sum ≤ (docs.length : ℚ) := by
      have hb : ∀ a ∈ docs.map (fun d => d.similarity_score), a ≤ 1 := by
        intro a ha
        simp only [List.mem_map] at ha
        obtain ⟨doc, hdoc, rfl⟩ := ha
        exact (h doc hdoc).2
      calc (docs.map (fun d => d.similarity_score)).sum
          ≤ (docs.map (fun d => d.similarity_score)).length • (1:ℚ) :=
            List.sum_le_card_nsmul _ 1 hb
        _ = (docs.length : ℚ) := by simp
    have havg0 : 0 ≤ (docs.map (fun d => d.similarity_score)).sum / (docs.length : ℚ) :=
      div_nonneg hsum0 (le_of_lt hlen)
    have havg1 : (docs.map (fun d => d.similarity_score)).sum / (docs.length : ℚ) ≤ 1 :=
      (div_le_one hlen).mpr hsum1
    simp only [calculate_confidence_score]
    rw [if_pos hd]
    have hmul0 : 0 ≤ (docs.map (fun d => d.similarity_score)).sum / (docs.length : ℚ) * (6/10) :=
      mul_nonneg havg0 (by norm_num)
    have hmul1 : (docs.map (fun d => d.similarity_score)).sum / (docs.length : ℚ) * (6/10)
        ≤ 6/10 := by nlinarith
    split_ifs <;> constructor <;>
      first
        | exact le_min (by linarith) (by norm_num)
        | exact min_le_right _ _

theorem hasAdj_tail {a b c : Char} {l : List Char} (h : hasAdj a b (c :: l) = false) :
    hasAdj a b l = false := by
  cases l with
  | nil => rfl
  | cons d r =>
    rw [show hasAdj a b (c :: d :: r) = ((c = a && d = b) || hasAdj a b (d :: r)) from rfl,
      Bool.or_eq_false_iff] at h
    exact h.2

theorem hasAdj_cons_of_tail {a b c : Char} {l : List Char} (h : hasAdj a b l = true) :
    hasAdj a b (c :: l) = true := by
  cases l with
  | nil => simp [hasAdj] at h
  | cons d r =>
    rw [show hasAdj a b (c :: d :: r) = ((c = a && d = b) || hasAdj a b (d :: r)) from rfl]
    rw [h]
    simp

theorem hasAdj_append_left {a b : Char} {x : List Char} (y : List Char)
    (h : hasAdj a b x = true) : hasAdj a b (x ++ y) = true := by
  induction x with
  | nil => simp [hasAdj] at h
  | cons c x ih =>
    cases x with
    | nil => simp [hasAdj] at h
    | cons d r =>
      rw [show hasAdj a b (c :: d :: r) = ((c = a && d = b) || hasAdj a b (d :: r)) from rfl,
        Bool.or_eq_true] at h
      rw [List.cons_append,
        show hasAdj a b (c :: (d :: r ++ y)) = ((c = a && d = b) || hasAdj a b (d :: r ++ y))
          from rfl]
      rcases h with h | h
      · rw [h]; simp
      · rw [ih h]; simp

theorem hasAdj_append_right {a b : Char} (x : List Char) {y : List Char}
    (h : hasAdj a b y = true) : hasAdj a b (x ++ y) = true := by
  induction x with
  | nil => simpa using h
  | cons c x ih => exact List.cons_append c x y ▸ hasAdj_cons_of_tail ih

theorem hasAdj_append_cases {a b : Char} {x y : List Char}
    (h : hasAdj a b (x ++ y) = true) :
    hasAdj a b x = true ∨ hasAdj a b y = true
      ∨ (x.getLast? = some a ∧ y.head? = some b) := by
  induction x with
  | nil => exact Or.inr (Or.inl (by simpa using h))
  | cons c x ih =>
    cases x with
    | nil =>
      cases y with
      | nil => simp [hasAdj] at h
      | cons e r =>
        rw [show ([c] : List Char) ++ e :: r = c :: e :: r from rfl,
          show hasAdj a b (c :: e :: r) = ((c = a && e = b) || hasAdj a b (e :: r)) from rfl,
          Bool.or_eq_true] at h
        rcases h with h | h
        · simp only [Bool.and_eq_true, decide_eq_true_eq] at h
          exact Or.inr (Or.inr (by simp [h.1, h.2]))
        · exact Or.inr (Or.inl h)
    | cons d r =>
      rw [List.cons_append,
        show hasAdj a b (c :: (d :: r ++ y)) = ((c = a && d = b) || hasAdj a b (d :: r ++ y))
          from rfl, Bool.or_eq_true] at h
      rcases h with h | h
      · exact Or.inl (by
          rw [show hasAdj a b (c :: d :: r) = ((c = a && d = b) || hasAdj a b (d :: r)) from rfl,
            h]
          simp)
      · rcases ih h with h2 | h2 | h2
        · exact Or.inl (hasAdj_cons_of_tail h2)
        · exact Or.inr (Or.inl h2)
        · exact Or.inr (Or.inr ⟨by simpa using h2.1, h2.2⟩)

theorem stripLineAux_true_head {l : List Char} {x : Char}
    (h : (stripLineAux true l).head? = some x) : x = '\n' := by
  induction l with
  | nil => simp [stripLineAux] at h
  | cons c rest ih =>
    by_cases hc : c = '\n'
    · subst hc
      rw [show stripLineAux true ('\n' :: rest) = '\n' :: stripLineAux false rest from by
        simp [stripLineAux]] at h
      simp only [List.head?_cons, Option.some.injEq] at h
      exact h.symm
    · rw [show stripLineAux true (c :: rest) = stripLineAux true rest from by
        simp [stripLineAux, hc]] at h
      exact ih h

theorem stripLineAux_false_head {l : List Char} {x : Char}
    (h : (stripLineAux false l).head? = some x) : l.head? = some x ∨ x = '\n' := by
  cases l with
  | nil => simp [stripLineAux] at h
  | cons c rest =>
    cases rest with
    | nil =>
      simp only [stripLineAux, List.head?_cons, Option.some.injEq] at h
      exact Or.inl (by simp [h])
    | cons d r2 =>
      by_cases hcd : c = '-' ∧ d = '-'
      · rw [show stripLineAux false (c :: d :: r2) = stripLineAux true r2 from by
          simp [stripLineAux, hcd]] at h
        exact Or.inr (stripLineAux_true_head h)
      · rw [show stripLineAux false (c :: d :: r2) = c :: stripLineAux false (d :: r2) from by
          simp [stripLineAux, hcd]] at h
        simp only [List.head?_cons, Option.some.injEq] at h
        exact Or.inl (by simp [h])

theorem stripLineAux_no_dashdash : ∀ (b : Bool) (l : List Char),
    hasAdj '-' '-' (stripLineAux b l) = false := by
  intro b l
  induction b, l using stripLineAux.induct with
  | case1 x => cases x <;> rfl
  | case2 rest ih =>
    rw [show stripLineAux true ('\n' :: rest) = '\n' :: stripLineAux false rest from by
      simp [stripLineAux]]
    cases hf : stripLineAux false rest with
    | nil => rfl
    | cons y ys =>
      rw [show hasAdj '-' '-' ('\n' :: y :: ys) = (('\n' = '-' && y = '-')
        || hasAdj '-' '-' (y :: ys)) from rfl]
      rw [← hf, ih]
      simp
  | case3 c rest hc ih =>
    rw [show stripLineAux true (c :: rest) = stripLineAux true rest from by
      simp [stripLineAux, hc]]
    exact ih
  | case4 c => rfl
  | case5 c d r2 hcd ih =>
    rw [show stripLineAux false (c :: d :: r2) = stripLineAux true r2 from by
      simp [stripLineAux, hcd]]
    exact ih
  | case6 c d r2 hcd ih =>
    rw [show stripLineAux false (c :: d :: r2) = c :: stripLineAux false (d :: r2) from by
      simp [stripLineAux, hcd]]
    cases hf : stripLineAux false (d :: r2) with
    | nil => rfl
    | cons y ys =>
      rw [show hasAdj '-' '-' (c :: y :: ys) = ((c = '-' && y = '-')
        || hasAdj '-' '-' (y :: ys)) from rfl, ← hf, ih, Bool.or_false]
      rcases stripLineAux_false_head (by rw [hf]; rfl) with hy | hy
      · simp only [List.head?_cons, Option.some.injEq] at hy
        subst hy
        simp only [Bool.and_eq_false_iff, decide_eq_false_iff_not]
        by_cases h1 : c = '-'
        · exact Or.inr (fun h2 => hcd ⟨h1, h2⟩)
        · exact Or.inl h1
      · subst hy
        simp

theorem stripLineAux_id_of_no_dashdash : ∀ (l : List Char),
    hasAdj '-' '-' l = false → stripLineAux false l = l := by
  intro l
  induction l with
  | nil => intro _; rfl
  | cons c rest ih =>
    intro h
    cases rest with
    | nil => rfl
    | cons d r2 =>
      have hcd : ¬(c = '-' ∧ d = '-') := by
        rw [show hasAdj '-' '-' (c :: d :: r2) = ((c = '-' && d = '-')
          || hasAdj '-' '-' (d :: r2)) from rfl, Bool.or_eq_false_iff] at h
        simpa using h.1
      rw [show stripLineAux false (c :: d :: r2) = c :: stripLineAux false (d :: r2) from by
        simp [stripLineAux, hcd]]
      rw [ih (hasAdj_tail h)]

theorem stripBlockAux_id_of_no_slashstar : ∀ (l : List Char),
    hasAdj '/' '*' l = false → stripBlockAux false l = l := by
  intro l
  induction l with
  | nil => intro _; rfl
  | cons c rest ih =>
    intro h
    cases rest with
    | nil => rfl
    | cons d r2 =>
      have hcd : ¬(c = '/' ∧ d = '*') := by
        rw [show hasAdj '/' '*' (c :: d :: r2) = ((c = '/' && d = '*')
          || hasAdj '/' '*' (d :: r2)) from rfl, Bool.or_eq_false_iff] at h
        simpa using h.1
      rw [show stripBlockAux false (c :: d :: r2) = c :: stripBlockAux false (d :: r2) from by
        simp [stripBlockAux, hcd]]
      rw [ih (hasAdj_tail h)]

theorem stripLineAux_no_slashstar : ∀ (b : Bool) (l : List Char),
    hasAdj '/' '*' l = false → hasAdj '/' '*' (stripLineAux b l) = false := by
  intro b l
  induction b, l using stripLineAux.induct with
  | case1 x => intro _; cases x <;> rfl
  | case2 rest ih =>
    intro h
    rw [show stripLineAux true ('\n' :: rest) = '\n' :: stripLineAux false rest from by
      simp [stripLineAux]]
    cases hf : stripLineAux false rest with
    | nil => rfl
    | cons y ys =>
      rw [show hasAdj '/' '*' ('\n' :: y :: ys) = (('\n' = '/' && y = '*')
        || hasAdj '/' '*' (y :: ys)) from rfl, ← hf, ih (hasAdj_tail h)]
      simp
  | case3 c rest hc ih =>
    intro h
    rw [show stripLineAux true (c :: rest) = stripLineAux true rest from by
      simp [stripLineAux, hc]]
    exact ih (hasAdj_tail h)
  | case4 c => intro _; rfl
  | case5 c d r2 hcd ih =>
    intro h
    rw [show stripLineAux false (c :: d :: r2) = stripLineAux true r2 from by
      simp [stripLineAux, hcd]]
    exact ih (hasAdj_tail (hasAdj_tail h))
  | case6 c d r2 hcd ih =>
    intro h
    rw [show stripLineAux false (c :: d :: r2) = c :: stripLineAux false (d :: r2) from by
      simp [stripLineAux, hcd]]
    cases hf : stripLineAux false (d :: r2) with
    | nil => rfl
    | cons y ys =>
      rw [show hasAdj '/' '*' (c :: y :: ys) = ((c = '/' && y = '*')
        || hasAdj '/' '*' (y :: ys)) from rfl, ← hf, ih (hasAdj_tail h), Bool.or_false]
      rcases stripLineAux_false_head (by rw [hf]; rfl) with hy | hy
      · simp only [List.head?_cons, Option.some.injEq] at hy
        subst hy
        have hpair : (c = '/' && d = '*') = false := by
          rw [show hasAdj '/' '*' (c :: d :: r2) = ((c = '/' && d = '*')
            || hasAdj '/' '*' (d :: r2)) from rfl, Bool.or_eq_false_iff] at h
          exact h.1
        exact hpair
      · subst hy
        simp

theorem wordsAux_word : ∀ (w cur l : List Char), (∀ c ∈ w, pyWs c = false) →
    wordsAux cur (w ++ l) = wordsAux (w.reverse ++ cur) l := by
  intro w
  induction w with
  | nil => intro cur l _; simp
  | cons c w ih =>
    intro cur l h
    rw [List.cons_append,
      show wordsAux cur (c :: (w ++ l)) = wordsAux (c :: cur) (w ++ l) from by
        simp [wordsAux, h c (by simp)]]
    rw [ih (c :: cur) l (fun e he => h e (by simp [he]))]
    simp [List.append_assoc]

theorem words_single (w : List Char) (hne : w ≠ []) (h : ∀ c ∈ w, pyWs c = false) :
    words w = [w] := by
  unfold words
  rw [show w = w ++ [] from by simp, wordsAux_word w [] [] h]
  simp only [List.append_nil, wordsAux]
  rw [if_neg (by simpa using hne)]
  simp

theorem words_word_space (w l : List Char) (hne : w ≠ []) (h : ∀ c ∈ w, pyWs c = false) :
    words (w ++ ' ' :: l) = w :: words l := by
  unfold words
  rw [wordsAux_word w [] (' ' :: l) h]
  simp only [List.append_nil]
  rw [show wordsAux w.reverse (' ' :: l) = w.reverse.reverse :: wordsAux [] l from by
    simp [wordsAux, pyWs, (by simpa using hne : w.reverse ≠ [])]]
  simp

theorem words_joinSp : ∀ (ws : List (List Char)),
    (∀ w ∈ ws, w ≠ [] ∧ ∀ c ∈ w, pyWs c = false) → words (joinSp ws) = ws := by
  intro ws
  induction ws with
  | nil => intro _; rfl
  | cons w ws ih =>
    intro h
    cases ws with
    | nil =>
      rw [show joinSp [w] = w from rfl,
        words_single w (h w (by simp)).1 (h w (by simp)).2]
    | cons w2 rest =>
      rw [show joinSp (w :: w2 :: rest) = w ++ ' ' :: joinSp (w2 :: rest) from rfl,
        words_word_space _ _ (h w (by simp)).1 (h w (by simp)).2,
        ih (fun v hv => h v (by simp [hv]))]

theorem wordsAux_mem_good : ∀ (l cur : List Char), (∀ c ∈ cur, pyWs c = false) →
    ∀ w ∈ wordsAux cur l, w ≠ [] ∧ ∀ c ∈ w, pyWs c = false := by
  intro l
  induction l with
  | nil =>
    intro cur hcur w hw
    unfold wordsAux at hw
    split at hw
    · simp at hw
    · simp only [List.mem_singleton] at hw
      subst hw
      refine ⟨by simpa using (by assumption : ¬cur = []), ?_⟩
      intro c hc
      exact hcur c (List.mem_reverse.mp hc)
  | cons c rest ih =>
    intro cur hcur w hw
    by_cases hc : pyWs c
    · by_cases hcn : cur = []
      · rw [show wordsAux cur (c :: rest) = wordsAux [] rest from by
          simp [wordsAux, hc, hcn]] at hw
        exact ih [] (by simp) w hw
      · rw [show wordsAux cur (c :: rest) = cur.reverse :: wordsAux [] rest from by
          simp [wordsAux, hc, hcn]] at hw
        rcases List.mem_cons.mp hw with hw | hw
        · subst hw
          exact ⟨by simpa using hcn, fun e he => hcur e (List.mem_reverse.mp he)⟩
        · exact ih [] (by simp) w hw
    · rw [show wordsAux cur (c :: rest) = wordsAux (c :: cur) rest from by
        simp [wordsAux, hc]] at hw
      refine ih (c :: cur) ?_ w hw
      intro e he
      rcases List.mem_cons.mp he with he | he
      · subst he; simpa using hc
      · exact hcur e he

theorem words_mem_good (l : List Char) :
    ∀ w ∈ words l, w ≠ [] ∧ ∀ c ∈ w, pyWs c = false :=
  wordsAux_mem_good l [] (by simp)

theorem wordsAux_mem_hasAdj {a b : Char} : ∀ (l cur w : List Char),
    w ∈ wordsAux cur l → hasAdj a b w = true →
    hasAdj a b (cur.reverse ++ l) = true := by
  intro l
  induction l with
  | nil =>
    intro cur w hw hadj
    unfold wordsAux at hw
    split at hw
    · simp at hw
    · simp only [List.mem_singleton] at hw
      subst hw
      simpa using hadj
  | cons c rest ih =>
    intro cur w hw hadj
    by_cases hc : pyWs c
    · by_cases hcn : cur = []
      · subst hcn
        rw [show wordsAux ([] : List Char) (c :: rest) = wordsAux [] rest from by
          simp [wordsAux, hc]] at hw
        have := ih [] w hw hadj
        simpa using hasAdj_cons_of_tail (c := c) (by simpa using this)
      · rw [show wordsAux cur (c :: rest) = cur.reverse :: wordsAux [] rest from by
          simp [wordsAux, hc, hcn]] at hw
        rcases List.mem_cons.mp hw with hw | hw
        · subst hw
          exact hasAdj_append_left _ hadj
        · have := ih [] w hw hadj
          exact hasAdj_append_right _ (hasAdj_cons_of_tail (by simpa using this))
    · rw [show wordsAux cur (c :: rest) = wordsAux (c :: cur) rest from by
        simp [wordsAux, hc]] at hw
      have := ih (c :: cur) w hw hadj
      rw [List.reverse_cons, List.append_assoc] at this
      simpa using this

theorem words_mem_hasAdj {a b : Char} (l w : List Char)
    (hw : w ∈ words l) (hadj : hasAdj a b w = true) : hasAdj a b l = true := by
  have := wordsAux_mem_hasAdj l [] w hw hadj
  simpa using this

theorem joinSp_hasAdj {a b : Char} (ha : a ≠ ' ') (hb : b ≠ ' ') :
    ∀ ws : List (List Char), hasAdj a b (joinSp ws) = true →
    ∃ w ∈ ws, hasAdj a b w = true := by
  intro ws
  induction ws with
  | nil => intro h; simp [joinSp, hasAdj] at h
  | cons w ws ih =>
    intro h
    cases ws with
    | nil => exact ⟨w, by simp, by simpa [joinSp] using h⟩
    | cons w2 rest =>
      rw [show joinSp (w :: w2 :: rest) = w ++ ' ' :: joinSp (w2 :: rest) from rfl] at h
      rcases hasAdj_append_cases h with h2 | h2 | h2
      · exact ⟨w, by simp, h2⟩
      · cases hj : joinSp (w2 :: rest) with
        | nil => rw [hj] at h2; simp [hasAdj] at h2
        | cons y ys =>
          rw [hj, show hasAdj a b (' ' :: y :: ys) = ((' ' = a && y = b)
            || hasAdj a b (y :: ys)) from rfl, Bool.or_eq_true] at h2
          rcases h2 with h2 | h2
          · simp only [Bool.and_eq_true, decide_eq_true_eq] at h2
            exact absurd h2.1.symm ha
          · obtain ⟨v, hv, hadj⟩ := ih (by rw [hj]; exact h2)
            exact ⟨v, by simp [hv], hadj⟩
      · simp only [List.head?_cons, Option.some.injEq] at h2
        exact absurd h2.2.symm hb

theorem collapse_no_hasAdj {a b : Char} (ha : a ≠ ' ') (hb : b ≠ ' ')
    {l : List Char} (h : hasAdj a b l = false) : hasAdj a b (collapse l) = false := by
  cases hc : hasAdj a b (collapse l) with
  | false => rfl
  | true =>
    obtain ⟨w, hw, hadj⟩ := joinSp_hasAdj ha hb (words l) hc
    rw [words_mem_hasAdj l w hw hadj] at h
    cases h

theorem ensureSemi_no_hasAdj {a b : Char} (hb : b ≠ ';')
    {l : List Char} (h : hasAdj a b l = false) : hasAdj a b (ensureSemi l) = false := by
  unfold ensureSemi
  split
  · exact h
  · cases hc : hasAdj a b (l ++ [';']) with
    | false => rfl
    | true =>
      rcases hasAdj_append_cases hc with h2 | h2 | h2
      · rw [h2] at h; cases h
      · simp [hasAdj] at h2
      · simp only [List.head?_cons, Option.some.injEq] at h2
        exact absurd h2.2.symm hb

theorem joinSp_concat : ∀ (ws : List (List Char)) (w : List Char) (c : Char),
    joinSp (ws ++ [w]) ++ [c] = joinSp (ws ++ [w ++ [c]]) := by
  intro ws
  induction ws with
  | nil => intro w c; rfl
  | cons v ws ih =>
    intro w c
    cases ws with
    | nil =>
      rw [show joinSp ([v] ++ [w]) = v ++ ' ' :: w from rfl,
        show joinSp ([v] ++ [w ++ [c]]) = v ++ ' ' :: (w ++ [c]) from rfl]
      simp
    | cons v2 rest =>
      rw [show (v :: v2 :: rest) ++ [w] = v :: ((v2 :: rest) ++ [w]) from rfl,
        show (v :: v2 :: rest) ++ [w ++ [c]] = v :: ((v2 :: rest) ++ [w ++ [c]]) from rfl,
        show joinSp (v :: ((v2 :: rest) ++ [w])) = v ++ ' ' :: joinSp ((v2 :: rest) ++ [w])
          from rfl,
        show joinSp (v :: ((v2 :: rest) ++ [w ++ [c]]))
          = v ++ ' ' :: joinSp ((v2 :: rest) ++ [w ++ [c]]) from rfl,
        List.append_assoc]
      rw [show (' ' :: joinSp ((v2 :: rest) ++ [w])) ++ [c]
        = ' ' :: (joinSp ((v2 :: rest) ++ [w]) ++ [c]) from rfl]
      rw [ih w c]

theorem collapse_ensureSemi_collapse (t : List Char) :
    collapse (ensureSemi (collapse t)) = ensureSemi (collapse t) := by
  have hgood := words_mem_good t
  unfold ensureSemi
  split
  · unfold collapse
    rw [words_joinSp (words t) hgood]
  · rcases List.eq_nil_or_concat (words t) with hws | ⟨ws2, w, hws⟩
    · unfold collapse
      rw [hws]
      rw [show joinSp ([] : List (List Char)) = [] from rfl]
      rw [show ([] : List Char) ++ [';'] = [';'] from rfl]
      rw [show words [';'] = [[';']] from words_single [';'] (by simp) (by decide)]
      rfl
    · unfold collapse
      rw [hws, List.concat_eq_append, joinSp_concat ws2 w ';',
        words_joinSp (ws2 ++ [w ++ [';']]) ?_]
      intro v hv
      rcases List.mem_append.mp hv with hv | hv
      · exact hgood v (by rw [hws]; simp [hv])
      · simp only [List.mem_singleton] at hv
        subst hv
        have hw := hgood w (by rw [hws]; simp)
        refine ⟨by simp, ?_⟩
        intro e he
        rcases List.mem_append.mp he with he | he
        · exact hw.2 e he
        · simp only [List.mem_singleton] at he
          subst he
          decide

theorem ensureSemi_idem (l : List Char) : ensureSemi (ensureSemi l) = ensureSemi l := by
  unfold ensureSemi
  split
  · rfl
  · rw [if_pos (List.getLast?_concat _)]

/-! ## Claim theorems -/

/-- C1: the claim states that for `"SELECT * FROM floats; DROP TABLE
floats;"` `validate_sql` fails with a multiple-statements reason.  It does
fail, but the forbidden-keyword check runs before the multiple-statements
check, so the reason names the keyword `DROP` instead. -/
theorem validate_sql_semicolon_drop_reason_is_keyword_not_multiple :
    validate_sql "SELECT * FROM floats; DROP TABLE floats;"
      = (false, "Forbidden keyword detected: DROP")
    ∧ (validate_sql "SELECT * FROM floats; DROP TABLE floats;").2
      ≠ "Multiple SQL statements are not allowed" := by
  constructor
  · decide
  · decide

/-- C1 (amended): for `"SELECT * FROM floats; DROP TABLE floats;"`,
`validate_sql` returns invalid — with the forbidden-keyword reason naming
`DROP`, since that check precedes the multiple-statements check — and
`execute_query` returns a failure result without ever sending the SQL to the
store, whatever the store would answer. -/
theorem execute_query_semicolon_drop_rejected_without_execution :
    ∀ dbExec : String → Except String (List String × List Row),
    execute_query dbExec "SELECT * FROM floats; DROP TABLE floats;"
      = ({ success := false, data := [], row_count := 0,
           error_message := some "SQL Validation Error: Forbidden keyword detected: DROP" },
         false) := by
  intro dbExec
  have hv : validate_sql "SELECT * FROM floats; DROP TABLE floats;"
      = (false, "Forbidden keyword detected: DROP") := by decide
  simp only [execute_query, hv]
  decide

/-- C2: the claim states that every SQL string containing a forbidden keyword
as a whole word — for example `"DROP TABLE floats;"` — is rejected with a
message naming that keyword.  `"DROP TABLE floats;"` is instead rejected by
the earlier must-start-with-SELECT check, whose message `"Only SELECT
statements are allowed"` names no keyword. -/
theorem validate_sql_drop_not_named :
    validate_sql "DROP TABLE floats;" = (false, "Only SELECT statements are allowed")
    ∧ containsSub "DROP".data "Only SELECT statements are allowed".data = false := by
  constructor
  · decide
  · decide

/-- C2 (amended): for every SQL string whose normalized form (upper-cased,
stripped, comments removed) starts with `SELECT` and contains a forbidden
keyword as a whole word, `validate_sql` returns false with a message naming
the first such keyword in `FORBIDDEN_KEYWORDS` order.  (Strings that do not
start with `SELECT`, such as `"DROP TABLE floats;"`, are rejected by the
earlier check with `"Only SELECT statements are allowed"` instead.) -/
theorem validate_sql_names_first_forbidden_keyword (s : String) (kw : String)
    (h1 : startsWithL "SELECT".data (normalizeQuery s) = true)
    (h2 : FORBIDDEN_KEYWORDS.find? (fun k => wholeWord k (normalizeQuery s)) = some kw) :
    validate_sql s = (false, "Forbidden keyword detected: " ++ kw) := by
  have hall : s.data.all pyWs = false := by
    cases hb : s.data.all pyWs with
    | false => rfl
    | true =>
      rw [normalizeQuery_of_allWs hb] at h1
      simp [startsWithL] at h1
  simp only [validate_sql, hall, h1, h2, Bool.false_eq_true, if_false, Bool.not_true]

/-- C2 witness: `"SELECT DROP"` satisfies both hypotheses and is rejected
naming `DROP`. -/
theorem validate_sql_names_first_forbidden_keyword_witness :
    startsWithL "SELECT".data (normalizeQuery "SELECT DROP") = true
    ∧ FORBIDDEN_KEYWORDS.find?
        (fun k => wholeWord k (normalizeQuery "SELECT DROP")) = some "DROP"
    ∧ validate_sql "SELECT DROP" = (false, "Forbidden keyword detected: DROP") :=
  ⟨by decide, by decide,
   validate_sql_names_first_forbidden_keyword "SELECT DROP" "DROP" (by decide) (by decide)⟩

/-- C4: the claim states that both vector-index failures and embedding
failures are caught and replaced by an empty context.  An embedding failure
is not: `embed_query` re-raises it and `process_query` re-raises it in turn,
so the call terminates with the exception instead of producing a result. -/
theorem process_query_embed_failure_raises :
    process_query (Except.error "embedding failure")
      (Except.ok { documents := [], metadatas := [], distances := [] })
      (Except.ok "SELECT 1")
      = Except.error "embedding failure" := rfl

/-- C4 (amended): a vector-index failure during context retrieval is caught
and replaced by an empty retrieved-context list, and `process_query` still
returns a normal result (for any embedding value and generated SQL); an
embedding failure, by contrast, propagates out of `process_query`. -/
theorem process_query_index_failure_empty_context :
    ∀ (emb : List ℚ) (err sql : String),
    process_query (Except.ok emb) (Except.error err) (Except.ok sql)
      = Except.ok { sql_query := sql,
                    confidence_score := calculate_confidence_score [] sql,
                    retrieved_context := [],
                    reasoning := "Here is the data you requested:" } :=
  fun _ _ _ => rfl

/-- C8: `enhance_query_with_location "Show me temperature near Mumbai"`
returns the original query unchanged together with a non-null geographic
context whose resolved location is the gazetteer entry for `mumbai`,
latitude 19.076 and longitude 72.8777. -/
theorem enhance_query_mumbai_context :
    (enhance_query_with_location "Show me temperature near Mumbai").1
      = "Show me temperature near Mumbai"
    ∧ ((enhance_query_with_location "Show me temperature near Mumbai").2.map
        (fun c => (c.mentioned, c.location.latitude, c.location.longitude)))
      = some ("mumbai", 19076/1000, 728777/10000) :=
  ⟨by decide, rfl⟩

/-- C10: the data-query response sets `row_count` to the length of the
(truncated) data list it returns, and both are bounded by the request's
`max_results`, regardless of how many rows the database execution returned. -/
theorem handle_data_query_row_count_bounded :
    ∀ (db_result : QueryExecutionResult) (rag_sql : String) (rag_conf : ℚ)
      (rag_reasoning : String) (intent : IntentResult) (max_results : Nat),
    (handle_data_query_response db_result rag_sql rag_conf rag_reasoning
        intent max_results).row_count
      = (handle_data_query_response db_result rag_sql rag_conf rag_reasoning
        intent max_results).data.length
    ∧ (handle_data_query_response db_result rag_sql rag_conf rag_reasoning
        intent max_results).row_count ≤ max_results
    ∧ (handle_data_query_response db_result rag_sql rag_conf rag_reasoning
        intent max_results).data.length ≤ max_results := by
  intro db_result rag_sql rag_conf rag_reasoning intent max_results
  refine ⟨rfl, ?_, ?_⟩ <;>
  · simp only [handle_data_query_response]
    split
    · simp
    · simp [List.length_take]

/-- C3: for any sequence of `add_message` calls on one session (each with any
call-stack budget, under any tokenizer), the stored turn_index values are
exactly `1, 2, 3, …` in insertion order after every operation — the sequence
is contiguous and strictly increasing starting at 1.  (This holds even for
calls that trigger summarization: the eviction's delete statement only runs
after the nested summary `add_message` returns, and that nested call re-runs
the optimizer and never returns normally, so reachable states are built from
appends at `MAX(turn_index)+1` only.) -/
theorem add_message_turn_indices_contiguous_from_one :
    ∀ (tok : String → Nat) (calls : List (Nat × String × String)),
    (runCalls tok [] calls).map (fun t => t.turn_index)
      = List.range' 1 (runCalls tok [] calls).length := by
  intro tok calls
  suffices h : ∀ st, ChatInv st → ChatInv (runCalls tok st calls) from
    h [] (by simp [ChatInv])
  induction calls with
  | nil => intro st h; exact h
  | cons c rest ih =>
    intro st h
    rcases c with ⟨fuel, role, msg⟩
    exact ih _ (addMessage_inv tok fuel st role msg h)

/-- C5: the claim states that one `add_message` call performs at most one
summarization pass and terminates.  In the code, the summary turn is inserted
through `add_message` *before* the five old turns are deleted, and that
nested call re-runs `optimize_conversation_history` on a session whose token
total has only grown — a mutual recursion that never terminates normally.
Concretely: with a tokenizer giving 801 tokens per character and a session of
four one-character messages (3204 tokens), adding a fifth message brings the
total to 4005 > 4000, and however much call-stack budget `fuel` the run is
given, the call never completes and performs `fuel` summarization passes
(one per stack level, until the recursion limit aborts the call). -/
theorem add_message_summarization_never_terminates :
    ∀ fuel : Nat,
    (addMessageF (fun s => 801 * s.length) fuel
        [⟨1, "user", "a"⟩, ⟨2, "user", "a"⟩, ⟨3, "user", "a"⟩, ⟨4, "user", "a"⟩]
        "user" "a").2.1 = false
    ∧ (addMessageF (fun s => 801 * s.length) fuel
        [⟨1, "user", "a"⟩, ⟨2, "user", "a"⟩, ⟨3, "user", "a"⟩, ⟨4, "user", "a"⟩]
        "user" "a").2.2 = fuel := by
  intro fuel
  rw [addMessageF]
  exact optimize_stuck (fun s => 801 * s.length) fuel _ (by decide) (by decide)

/-- C7: for every regex oracle and query, the classifier's confidence equals
the specified formula — `min(0.9, 0.3 + 0.2 × winning pattern-match count)`
when some intent pattern matched, `0.7` for the conversational fallback
(query of at most 3 tokens matching no data-requiring pattern), `0.5` for the
data_query fallback, with `0.1` added when the comparison winner is promoted
— and whenever the highest-scoring intent is comparison while visualization
also matched, the result is promoted to visualization. -/
theorem analyze_intent_confidence_matches_spec :
    ∀ (m : String → Bool) (q : String),
    (analyze_intent m q).confidence = specConfidence m q
    ∧ (∀ x, pickMax (intentScores m) = some x →
        x.1 = ResponseType.comparison →
        (intentScores m).any (fun y => y.1 = ResponseType.visualization) = true →
        (analyze_intent m q).response_type = ResponseType.visualization) :=
  fun m q =>
    ⟨analyze_intent_confidence_eq m q,
     fun x h1 h2 h3 => analyze_intent_promotes_comparison m q x h1 h2 h3⟩

/-- C7 witness: an oracle matching two comparison patterns and one
visualization pattern; comparison wins with score 2, and the result is
promoted to visualization. -/
theorem analyze_intent_confidence_matches_spec_witness :
    pickMax (intentScores (fun p =>
        p == "\\b(compare|comparison|vs|versus|difference|differences)\\b"
        || p == "(which.*better|which.*higher|which.*more)"
        || p == "\\b(plot|graph|chart|visualize|draw)\\b"))
      = some (ResponseType.comparison,
          ["\\b(compare|comparison|vs|versus|difference|differences)\\b",
           "(which.*better|which.*higher|which.*more)"])
    ∧ (analyze_intent (fun p =>
        p == "\\b(compare|comparison|vs|versus|difference|differences)\\b"
        || p == "(which.*better|which.*higher|which.*more)"
        || p == "\\b(plot|graph|chart|visualize|draw)\\b") "compare the plots").confidence
      = specConfidence (fun p =>
        p == "\\b(compare|comparison|vs|versus|difference|differences)\\b"
        || p == "(which.*better|which.*higher|which.*more)"
        || p == "\\b(plot|graph|chart|visualize|draw)\\b") "compare the plots"
    ∧ (analyze_intent (fun p =>
        p == "\\b(compare|comparison|vs|versus|difference|differences)\\b"
        || p == "(which.*better|which.*higher|which.*more)"
        || p == "\\b(plot|graph|chart|visualize|draw)\\b") "compare the plots").response_type
      = ResponseType.visualization :=
  ⟨by decide,
   (analyze_intent_confidence_matches_spec _ "compare the plots").1,
   (analyze_intent_confidence_matches_spec _ "compare the plots").2
     (ResponseType.comparison,
      ["\\b(compare|comparison|vs|versus|difference|differences)\\b",
       "(which.*better|which.*higher|which.*more)"])
     (by decide) (by decide) (by decide)⟩

/-- C6: the claim states that every similarity score lies in [0,1] even for
vector-index distances greater than 1.  There is no clamping: a distance of 2
produces `similarity_score = 1 - 2 = -1`, outside [0,1]. -/
theorem similarity_score_negative_for_distance_two :
    (retrieve_context (Except.ok
        { documents := ["doc"], metadatas := [[]], distances := [2] })).map
      (fun d => d.similarity_score) = [-1]
    ∧ ¬ (0 ≤ (-1 : ℚ)) := by
  constructor
  · rw [show (retrieve_context (Except.ok
        { documents := ["doc"], metadatas := [[]], distances := [2] })).map
      (fun d => d.similarity_score) = [(1:ℚ) - 2] from rfl]
    norm_num
  · norm_num

/-- C6 (amended): `IntentResult.confidence` always lies in [0,1];
`RetrievedDocument.similarity_score = 1 - distance` lies in [0,1] whenever
the vector-index distance lies in [0,1] (but is negative for larger
distances — there is no clamping); `QueryResult.confidence_score` lies in
[0,1] whenever all retrieved similarity scores lie in [0,1], and is capped
at 1 unconditionally (but can be negative when similarities are negative). -/
theorem confidence_and_similarity_bounds :
    (∀ (m : String → Bool) (q : String),
      0 ≤ (analyze_intent m q).confidence ∧ (analyze_intent m q).confidence ≤ 1)
    ∧ (∀ r : RawQueryResults, (∀ d ∈ r.distances, 0 ≤ d ∧ d ≤ 1) →
        ∀ doc ∈ retrieve_context (Except.ok r),
          0 ≤ doc.similarity_score ∧ doc.similarity_score ≤ 1)
    ∧ (∀ (docs : List RetrievedDoc) (sql : String),
        (∀ doc ∈ docs, 0 ≤ doc.similarity_score ∧ doc.similarity_score ≤ 1) →
          0 ≤ calculate_confidence_score docs sql
          ∧ calculate_confidence_score docs sql ≤ 1)
    ∧ (∀ (docs : List RetrievedDoc) (sql : String),
        calculate_confidence_score docs sql ≤ 1) := by
  refine ⟨?_, retrieve_context_bounds, calculate_confidence_bounds, ?_⟩
  · intro m q
    rw [analyze_intent_confidence_eq]
    exact specConfidence_bounds m q
  · intro docs sql
    simp only [calculate_confidence_score]
    exact min_le_right _ _

/-- C6 witness: the bounds applied at concrete inputs — a no-match oracle, a
retrieval result with distance 1/2, and an empty context with a SELECT. -/
theorem confidence_and_similarity_bounds_witness :
    (0 ≤ (analyze_intent (fun _ => false) "hi").confidence
      ∧ (analyze_intent (fun _ => false) "hi").confidence ≤ 1)
    ∧ (∀ doc ∈ retrieve_context (Except.ok
          { documents := ["doc"], metadatas := [[]], distances := [1/2] }),
        0 ≤ doc.similarity_score ∧ doc.similarity_score ≤ 1)
    ∧ (0 ≤ calculate_confidence_score [] "SELECT 1"
      ∧ calculate_confidence_score [] "SELECT 1" ≤ 1) :=
  ⟨confidence_and_similarity_bounds.1 (fun _ => false) "hi",
   confidence_and_similarity_bounds.2.1
     { documents := ["doc"], metadatas := [[]], distances := [1/2] }
     (by intro d hd; simp only [List.mem_singleton] at hd; subst hd; norm_num),
   confidence_and_similarity_bounds.2.2.1 [] "SELECT 1"
     (by intro doc hdoc; exact absurd hdoc (List.not_mem_nil _))⟩

/-- C9: the claim states `sanitize_sql` is idempotent on every SQL string.
It is not: in the input below, where a block comment sits between two dash
characters, removing the block comment joins the dashes into a new
line-comment marker, which only the second pass strips: one pass gives
`"SELECT a -- b;"`, two passes give `"SELECT a;"`. -/
theorem sanitize_sql_not_idempotent :
    sanitize_sql (sanitize_sql "SELECT a -/*c*/- b")
      ≠ sanitize_sql "SELECT a -/*c*/- b"
    ∧ sanitize_sql "SELECT a -/*c*/- b" = "SELECT a -- b;"
    ∧ sanitize_sql (sanitize_sql "SELECT a -/*c*/- b") = "SELECT a;" := by
  refine ⟨?_, ?_, ?_⟩ <;> decide

/-- C9 (amended): `sanitize_sql` is idempotent on every SQL string that
contains no block-comment opener `/*` (on such strings the block-comment
pass is the identity, and neither comment stripping, whitespace collapsing
nor the appended semicolon can create a new `--` or `/*` marker for the
second pass to act on). -/
theorem sanitize_sql_idempotent_without_block_comments :
    ∀ s : String, hasAdj '/' '*' s.data = false →
    sanitize_sql (sanitize_sql s) = sanitize_sql s := by
  intro s h
  have hSL : hasAdj '/' '*' (stripLineComments s.data) = false :=
    stripLineAux_no_slashstar false s.data h
  have hblock : stripBlockComments (stripLineComments s.data) = stripLineComments s.data :=
    stripBlockAux_id_of_no_slashstar _ hSL
  have hdash_t : hasAdj '-' '-' (stripLineComments s.data) = false :=
    stripLineAux_no_dashdash false s.data
  set t := stripLineComments s.data with ht
  have hdash_s1 : hasAdj '-' '-' (ensureSemi (collapse t)) = false :=
    ensureSemi_no_hasAdj (by decide) (collapse_no_hasAdj (by decide) (by decide) hdash_t)
  have hstar_s1 : hasAdj '/' '*' (ensureSemi (collapse t)) = false :=
    ensureSemi_no_hasAdj (by decide) (collapse_no_hasAdj (by decide) (by decide) hSL)
  unfold sanitize_sql
  rw [hblock]
  rw [show (String.mk (ensureSemi (collapse t))).data = ensureSemi (collapse t) from rfl]
  rw [show stripLineComments (ensureSemi (collapse t)) = ensureSemi (collapse t) from
    stripLineAux_id_of_no_dashdash _ hdash_s1]
  rw [show stripBlockComments (ensureSemi (collapse t)) = ensureSemi (collapse t) from
    stripBlockAux_id_of_no_slashstar _ hstar_s1]
  rw [collapse_ensureSemi_collapse t]
  rw [ensureSemi_idem]

/-- C9 witness: a block-comment-free query on which idempotence holds. -/
theorem sanitize_sql_idempotent_without_block_comments_witness :
    hasAdj '/' '*' "SELECT a  -- trailing\nFROM b".data = false
    ∧ sanitize_sql (sanitize_sql "SELECT a  -- trailing\nFROM b")
      = sanitize_sql "SELECT a  -- trailing\nFROM b" :=
  ⟨by decide,
   sanitize_sql_idempotent_without_block_comments "SELECT a  -- trailing\nFROM b" (by decide)⟩

end Voidai
